import Mathlib

/- Verification development for two mesh-generation scripts:
   `tempCodeRunnerFile.py` (extruded 3D heart) and `test.py` (parametric "SARA"
   nameplate).  Both scripts build a vertex list and a triangle-index list and
   then denormalize them into an STL-style mesh (one coordinate triple per
   triangle corner).

   Embedding conventions: real-valued coordinates are modelled over `ℚ`; the
   transcendental routines of the numerics library (`np.pi`, `np.cos`,
   `np.sin`) are abstracted as a parameter record `Trig`, since none of the
   verified properties depend on the actual trigonometric values.  Lists model
   the Python lists/arrays in construction order, and `ℕ` models the
   (nonnegative) index arithmetic of the scripts. -/

namespace Meshes

/-- A 3D point `[x, y, z]` as appended to the scripts' vertex lists. -/
abbrev Vec3 : Type := ℚ × ℚ × ℚ

/-- A triangular face `[a, b, c]` of vertex indices. -/
abbrev Face : Type := ℕ × ℕ × ℕ

/-- Abstraction of the numerics library's `pi`, `cos` and `sin`. -/
structure Trig where
  pi : ℚ
  cos : ℚ → ℚ
  sin : ℚ → ℚ

/-- A throwaway instantiation of `Trig`, used to evaluate witnesses. -/
def trivTrig : Trig := ⟨0, fun _ => 0, fun _ => 0⟩

/-- `np.radians(d)`: degrees to radians. -/
def radians (tr : Trig) (d : ℚ) : ℚ := d * tr.pi / 180

/-- `np.linspace(a, b, n)` with `endpoint=True`. -/
def linspace (a b : ℚ) (n : ℕ) : List ℚ :=
  (List.range n).map (fun (i : ℕ) => a + (b - a) * (i : ℚ) / ((n : ℚ) - 1))

/- ------------------ heart script (`tempCodeRunnerFile.py`) ------------------
   The script hard-codes `HEART_SCALE = 0.4`, `THICKNESS = 2.0`,
   `NUM_POINTS = 100`; the claims quantify over these, so the embedding takes
   them as parameters `scale`, `thickness`, `N`. -/

/-- `HEART_SCALE = 0.4`. -/
def HEART_SCALE : ℚ := 2 / 5

/-- `THICKNESS = 2.0`. -/
def THICKNESS : ℚ := 2

/-- `NUM_POINTS = 100`. -/
def NUM_POINTS : ℕ := 100

/-- `t = np.linspace(0, 2*np.pi, N, endpoint=False)`: the `i`-th sample is
`2*pi*i/N`. -/
def heartT (tr : Trig) (N i : ℕ) : ℚ := 0 + (2 * tr.pi - 0) * i / N

/-- `x[i] = (16 * np.sin(t)**3)[i] * HEART_SCALE` (with `scale` in place of the
hard-coded `HEART_SCALE`). -/
def heartX (tr : Trig) (scale : ℚ) (N i : ℕ) : ℚ :=
  16 * (tr.sin (heartT tr N i)) ^ 3 * scale

/-- `y[i] = (13*cos(t) - 5*cos(2t) - 2*cos(3t) - cos(4t))[i] * HEART_SCALE`. -/
def heartY (tr : Trig) (scale : ℚ) (N i : ℕ) : ℚ :=
  (13 * tr.cos (heartT tr N i) - 5 * tr.cos (2 * heartT tr N i)
      - 2 * tr.cos (3 * heartT tr N i) - tr.cos (4 * heartT tr N i)) * scale

/-- The heart script's vertex list: `N` contour points at `z = thickness/2`,
the same `N` points at `z = -thickness/2`, then the top center (index `2N`)
and the bottom center (index `2N+1`). -/
def heartVertices (tr : Trig) (scale thickness : ℚ) (N : ℕ) : List Vec3 :=
  (List.range N).map (fun i => (heartX tr scale N i, heartY tr scale N i, thickness / 2))
    ++ (List.range N).map (fun i => (heartX tr scale N i, heartY tr scale N i, -(thickness / 2)))
    ++ [(0, 0, thickness / 2), (0, 0, -(thickness / 2))]

/-- `next_i = (i + 1) % NUM_POINTS`. -/
def nxt (N i : ℕ) : ℕ := (i + 1) % N

/-- Side faces: for each `i`, the quad between consecutive perimeter vertices
split into the two triangles `[i, next, N+next]` and `[i, N+next, N+i]`. -/
def heartSideFaces (N : ℕ) : List Face :=
  (List.range N).flatMap
    (fun i => [(i, nxt N i, N + nxt N i), (i, N + nxt N i, N + i)])

/-- Top-cap fan faces `[2N, i, next]` from the top center vertex. -/
def heartTopFaces (N : ℕ) : List Face :=
  (List.range N).map (fun i => (2 * N, i, nxt N i))

/-- Bottom-cap fan faces `[2N+1, N+next, N+i]` from the bottom center vertex. -/
def heartBottomFaces (N : ℕ) : List Face :=
  (List.range N).map (fun i => (2 * N + 1, N + nxt N i, N + i))

/-- The heart script's face list, in append order of the three loops. -/
def heartFaces (N : ℕ) : List Face :=
  heartSideFaces N ++ heartTopFaces N ++ heartBottomFaces N

lemma nxt_lt {N : ℕ} (hN : 0 < N) (i : ℕ) : nxt N i < N :=
  Nat.mod_lt _ hN

lemma nxt_of_succ_lt {N i : ℕ} (h : i + 1 < N) : nxt N i = i + 1 :=
  Nat.mod_eq_of_lt h

lemma nxt_of_succ_eq {N i : ℕ} (h : i + 1 = N) : nxt N i = 0 := by
  simp [nxt, h]

lemma heartVertices_length (tr : Trig) (scale thickness : ℚ) (N : ℕ) :
    (heartVertices tr scale thickness N).length = 2 * N + 2 := by
  simp [heartVertices]; omega

/-- Length of a loop that appends two elements per iteration. -/
lemma length_flatMap_pair {α : Type} (f g : ℕ → α) (N : ℕ) :
    ((List.range N).flatMap (fun i => [f i, g i])).length = 2 * N := by
  induction N with
  | zero => simp
  | succ n ih => rw [List.range_succ, List.flatMap_append]; simp [ih]; omega

lemma heartSideFaces_length (N : ℕ) : (heartSideFaces N).length = 2 * N := by
  rw [heartSideFaces]
  exact length_flatMap_pair _ _ N

lemma heartTopFaces_length (N : ℕ) : (heartTopFaces N).length = N := by
  simp [heartTopFaces]

lemma heartBottomFaces_length (N : ℕ) : (heartBottomFaces N).length = N := by
  simp [heartBottomFaces]

lemma heartFaces_length (N : ℕ) : (heartFaces N).length = 4 * N := by
  simp [heartFaces, heartSideFaces_length, heartTopFaces_length,
    heartBottomFaces_length]
  omega

/-- Element `2*i` of a two-per-iteration append loop. -/
lemma getElem?_flatMap_pair_left {α : Type} (f g : ℕ → α) {N i : ℕ} (h : i < N) :
    ((List.range N).flatMap (fun j => [f j, g j]))[2 * i]? = some (f i) := by
  induction N with
  | zero => omega
  | succ n ih =>
    rw [List.range_succ, List.flatMap_append]
    rcases Nat.lt_or_ge i n with hi | hi
    · rw [List.getElem?_append_left (by rw [length_flatMap_pair]; omega)]
      exact ih hi
    · have hn : n = i := by omega
      subst hn
      rw [List.getElem?_append_right (le_of_eq (length_flatMap_pair f g n))]
      rw [length_flatMap_pair]
      simp [Nat.sub_self]

/-- Element `2*i + 1` of a two-per-iteration append loop. -/
lemma getElem?_flatMap_pair_right {α : Type} (f g : ℕ → α) {N i : ℕ} (h : i < N) :
    ((List.range N).flatMap (fun j => [f j, g j]))[2 * i + 1]? = some (g i) := by
  induction N with
  | zero => omega
  | succ n ih =>
    rw [List.range_succ, List.flatMap_append]
    rcases Nat.lt_or_ge i n with hi | hi
    · rw [List.getElem?_append_left (by rw [length_flatMap_pair]; omega)]
      exact ih hi
    · have hn : n = i := by omega
      subst hn
      rw [List.getElem?_append_right (by rw [length_flatMap_pair]; omega)]
      rw [length_flatMap_pair]
      have h1 : 2 * n + 1 - 2 * n = 1 := by omega
      rw [h1]
      rfl

/-- C2: for every `NUM_POINTS = N ≥ 1` the heart script builds exactly
`2N + 2` vertices (the `N` contour points at the two z-levels, then the top
center at index `2N` and the bottom center at index `2N+1`) and exactly `4N`
faces: for each `i < N` (with `next = (i+1) % N`) the side-wall triangles
`[i, next, N+next]` (position `2i`) and `[i, N+next, N+i]` (position `2i+1`),
the top fan triangle `[2N, i, next]` (position `2N+i`), and the bottom fan
triangle `[2N+1, N+next, N+i]` (position `3N+i`). -/
theorem heart_vertex_face_structure (tr : Trig) (scale thickness : ℚ) (N : ℕ)
    (hN : 1 ≤ N) :
    (heartVertices tr scale thickness N).length = 2 * N + 2 ∧
    (heartFaces N).length = 4 * N ∧
    (∀ i, i < N →
      (heartVertices tr scale thickness N)[i]? =
        some (heartX tr scale N i, heartY tr scale N i, thickness / 2) ∧
      (heartVertices tr scale thickness N)[N + i]? =
        some (heartX tr scale N i, heartY tr scale N i, -(thickness / 2)) ∧
      (heartFaces N)[2 * i]? = some (i, nxt N i, N + nxt N i) ∧
      (heartFaces N)[2 * i + 1]? = some (i, N + nxt N i, N + i) ∧
      (heartFaces N)[2 * N + i]? = some (2 * N, i, nxt N i) ∧
      (heartFaces N)[3 * N + i]? = some (2 * N + 1, N + nxt N i, N + i)) ∧
    (heartVertices tr scale thickness N)[2 * N]? = some (0, 0, thickness / 2) ∧
    (heartVertices tr scale thickness N)[2 * N + 1]? =
      some (0, 0, -(thickness / 2)) := by
  have hS : (heartSideFaces N).length = 2 * N := heartSideFaces_length N
  have hT : (heartTopFaces N).length = N := heartTopFaces_length N
  refine ⟨heartVertices_length tr scale thickness N, heartFaces_length N,
    fun i hi => ⟨?_, ?_, ?_, ?_, ?_, ?_⟩, ?_, ?_⟩
  · rw [heartVertices]
    simp only [List.getElem?_append, List.length_append, List.length_map,
      List.length_range]
    rw [if_pos (show i < N + N by omega), if_pos hi]
    simp [hi]
  · rw [heartVertices]
    simp only [List.getElem?_append, List.length_append, List.length_map,
      List.length_range]
    rw [if_pos (show N + i < N + N by omega),
      if_neg (show ¬ N + i < N by omega)]
    have h1 : N + i - N = i := by omega
    rw [h1]
    simp [hi]
  · rw [heartFaces]
    simp only [List.getElem?_append, List.length_append, hS, hT]
    rw [if_pos (show 2 * i < 2 * N + N by omega),
      if_pos (show 2 * i < 2 * N by omega), heartSideFaces]
    exact getElem?_flatMap_pair_left _ _ hi
  · rw [heartFaces]
    simp only [List.getElem?_append, List.length_append, hS, hT]
    rw [if_pos (show 2 * i + 1 < 2 * N + N by omega),
      if_pos (show 2 * i + 1 < 2 * N by omega), heartSideFaces]
    exact getElem?_flatMap_pair_right _ _ hi
  · rw [heartFaces]
    simp only [List.getElem?_append, List.length_append, hS, hT]
    rw [if_pos (show 2 * N + i < 2 * N + N by omega),
      if_neg (show ¬ 2 * N + i < 2 * N by omega)]
    have h1 : 2 * N + i - 2 * N = i := by omega
    rw [h1, heartTopFaces]
    simp [hi]
  · rw [heartFaces]
    simp only [List.getElem?_append, List.length_append, hS, hT]
    rw [if_neg (show ¬ 3 * N + i < 2 * N + N by omega)]
    have h1 : 3 * N + i - (2 * N + N) = i := by omega
    rw [h1, heartBottomFaces]
    simp [hi]
  · rw [heartVertices]
    simp only [List.getElem?_append, List.length_append, List.length_map,
      List.length_range]
    rw [if_neg (show ¬ 2 * N < N + N by omega)]
    have h1 : 2 * N - (N + N) = 0 := by omega
    rw [h1]
    rfl
  · rw [heartVertices]
    simp only [List.getElem?_append, List.length_append, List.length_map,
      List.length_range]
    rw [if_neg (show ¬ 2 * N + 1 < N + N by omega)]
    have h1 : 2 * N + 1 - (N + N) = 1 := by omega
    rw [h1]
    rfl

/-- Witness for `heart_vertex_face_structure` at `N = 1`, `i = 0`: the first
side face of the one-point heart. -/
theorem heart_vertex_face_structure_witness :
    (heartFaces 1)[2 * 0]? = some (0, nxt 1 0, 1 + nxt 1 0) :=
  ((heart_vertex_face_structure trivTrig 1 2 1 (by norm_num)).2.2.1 0
    (by norm_num)).2.2.1

/-- C3: side-face count and z-levels of the heart extrusion.  For `N` exterior
points and thickness `h = thickness > 0` over the z-range `[z0, z0 + h]` with
`z0 = -thickness/2`: exactly `2N` side triangles are emitted, and the
z-coordinate of every vertex (the two center vertices included) is either
`z0` or `z0 + h`. -/
theorem heart_side_count_and_z_levels (tr : Trig) (scale thickness : ℚ)
    (N : ℕ) (hT : 0 < thickness) :
    (heartSideFaces N).length = 2 * N ∧
    ∀ v ∈ heartVertices tr scale thickness N,
      v.2.2 = -(thickness / 2) ∨ v.2.2 = -(thickness / 2) + thickness := by
  refine ⟨heartSideFaces_length N, fun v hv => ?_⟩
  rw [heartVertices] at hv
  rcases List.mem_append.mp hv with h | h
  · rcases List.mem_append.mp h with h' | h'
    · rcases List.mem_map.mp h' with ⟨i, _, rfl⟩
      right
      show thickness / 2 = -(thickness / 2) + thickness
      ring
    · rcases List.mem_map.mp h' with ⟨i, _, rfl⟩
      left
      rfl
  · rcases List.mem_cons.mp h with h' | h'
    · rw [h']
      right
      show thickness / 2 = -(thickness / 2) + thickness
      ring
    · rw [List.mem_singleton.mp h']
      left
      rfl

/-- Witness for `heart_side_count_and_z_levels` at `thickness = 2`, `N = 1`,
evaluated on the bottom center vertex `(0, 0, -(2/2))`. -/
theorem heart_side_count_and_z_levels_witness :
    ((0 : ℚ), (0 : ℚ), -((2 : ℚ) / 2)).2.2 = -((2 : ℚ) / 2) ∨
      ((0 : ℚ), (0 : ℚ), -((2 : ℚ) / 2)).2.2 = -((2 : ℚ) / 2) + 2 :=
  (heart_side_count_and_z_levels trivTrig 1 2 1 (by norm_num)).2
    (0, 0, -(2 / 2)) (by simp [heartVertices])

/-- C4 counterexample: run with `NUM_POINTS = 1` or `NUM_POINTS = 2`, the
heart script's top-fan and bottom-fan face lists are NOT empty — the fan
loops run `NUM_POINTS` times unconditionally — contradicting the claim that
a ring with fewer than 3 points produces no cap faces. -/
theorem heart_small_ring_caps_cex :
    heartTopFaces 1 ≠ [] ∧ heartBottomFaces 1 ≠ [] ∧
    heartTopFaces 2 ≠ [] ∧ heartBottomFaces 2 ≠ [] := by decide

/-- C4 amended: the cap-fan loops run unconditionally; for every `N ≥ 1`
(including the rings with fewer than 3 points, `N = 1` and `N = 2`) the
top-fan and bottom-fan face lists each contain exactly `N` faces, so small
rings get degenerate cap faces rather than none. -/
theorem heart_cap_fans_always (N : ℕ) (hN : 1 ≤ N) :
    (heartTopFaces N).length = N ∧ (heartBottomFaces N).length = N ∧
    heartTopFaces N ≠ [] ∧ heartBottomFaces N ≠ [] := by
  refine ⟨heartTopFaces_length N, heartBottomFaces_length N, ?_, ?_⟩
  · intro h
    have h' := congrArg List.length h
    rw [heartTopFaces_length] at h'
    simp at h'
    omega
  · intro h
    have h' := congrArg List.length h
    rw [heartBottomFaces_length] at h'
    simp at h'
    omega

/-- Witness for `heart_cap_fans_always` at `N = 1`. -/
theorem heart_cap_fans_always_witness :
    (heartTopFaces 1).length = 1 ∧ (heartBottomFaces 1).length = 1 ∧
    heartTopFaces 1 ≠ [] ∧ heartBottomFaces 1 ≠ [] :=
  heart_cap_fans_always 1 (by norm_num)

/- ------------------------ nameplate script (`test.py`) ------------------------
   All parameters are the script's hard-coded constants. -/

/-- `PLATE_WIDTH = 4.0`. -/
def PLATE_WIDTH : ℚ := 4

/-- `PLATE_HEIGHT = 2.0`. -/
def PLATE_HEIGHT : ℚ := 2

/-- `PLATE_THICKNESS = 0.2`. -/
def PLATE_THICKNESS : ℚ := 1 / 5

/-- `LETTER_HEIGHT = 0.15`. -/
def LETTER_HEIGHT : ℚ := 3 / 20

/-- `LETTER_WIDTH_SCALE = 0.8`. -/
def LETTER_WIDTH_SCALE : ℚ := 4 / 5

/-- `STAND_ANGLE = 30`. -/
def STAND_ANGLE : ℚ := 30

/-- `STAND_HEIGHT = 1.5`. -/
def STAND_HEIGHT : ℚ := 3 / 2

/-- `STAND_THICKNESS = 0.3` (declared by the script but unused in geometry). -/
def STAND_THICKNESS : ℚ := 3 / 10

/-- `generate_letter_S`: 10 top-curve samples, one middle point, 10
bottom-curve samples. -/
def generate_letter_S (tr : Trig) (center_x center_y height width_scale : ℚ) :
    List (ℚ × ℚ) :=
  let radius := height / 4 * width_scale
  ((linspace (tr.pi / 2) (3 * tr.pi / 2) 10).map
      (fun a => (center_x + radius * tr.cos a + radius,
                 center_y + height / 2 - radius + radius * tr.sin a)))
    ++ [(center_x - radius, center_y)]
    ++ ((linspace (3 * tr.pi / 2) (5 * tr.pi / 2) 10).map
      (fun a => (center_x + radius * tr.cos a - radius,
                 center_y - height / 2 + radius + radius * tr.sin a)))

/-- `generate_letter_A`: peak, left leg, crossbar (2 points), right leg. -/
def generate_letter_A (center_x center_y height width_scale : ℚ) :
    List (ℚ × ℚ) :=
  let width := height * width_scale
  [(center_x, center_y + height / 2),
   (center_x - width / 2, center_y - height / 2),
   (center_x - width / 3, center_y - height / 6),
   (center_x + width / 3, center_y - height / 6),
   (center_x + width / 2, center_y - height / 2)]

/-- The four plate corners. -/
def plate_corners : List (ℚ × ℚ) :=
  [(-(PLATE_WIDTH / 2), -(PLATE_HEIGHT / 2)),
   (PLATE_WIDTH / 2, -(PLATE_HEIGHT / 2)),
   (PLATE_WIDTH / 2, PLATE_HEIGHT / 2),
   (-(PLATE_WIDTH / 2), PLATE_HEIGHT / 2)]

/-- Plate vertices: bottom (`z = 0`) and top (`z = PLATE_THICKNESS`) per
corner. -/
def plateVerts : List Vec3 :=
  plate_corners.flatMap (fun c => [(c.1, c.2, 0), (c.1, c.2, PLATE_THICKNESS)])

/-- `plate_count = len(vertices)` right after the plate loop. -/
def plate_count : ℕ := plateVerts.length

/-- `letter_spacing = PLATE_WIDTH / 5`. -/
def letter_spacing : ℚ := PLATE_WIDTH / 5

/-- The four letter center x-coordinates (S, A, R→A, A). -/
def letter_centers_x : List ℚ :=
  [-(3 / 2 * letter_spacing), -(1 / 2 * letter_spacing),
   1 / 2 * letter_spacing, 3 / 2 * letter_spacing]

/-- The 2D outline of the letter at position `i` of the `SARA` loop: `S` for
`i = 0`, the simplified `A` shape otherwise. -/
def letter_points_at (tr : Trig) (i : ℕ) (cx : ℚ) : List (ℚ × ℚ) :=
  if i = 0 then generate_letter_S tr cx 0 (LETTER_HEIGHT * 8) LETTER_WIDTH_SCALE
  else generate_letter_A cx 0 (LETTER_HEIGHT * 8) LETTER_WIDTH_SCALE

/-- `letter_verts`: each 2D letter point raised to the two z-levels
`PLATE_THICKNESS` and `PLATE_THICKNESS + LETTER_HEIGHT`, in letter order. -/
def letter_verts (tr : Trig) : List Vec3 :=
  (letter_centers_x.enum).flatMap
    (fun p => (letter_points_at tr p.1 p.2).flatMap
      (fun q => [(q.1, q.2, PLATE_THICKNESS),
                 (q.1, q.2, PLATE_THICKNESS + LETTER_HEIGHT)]))

/-- `letter_count = len(letter_verts)`. -/
def letter_count (tr : Trig) : ℕ := (letter_verts tr).length

/-- `stand_back_y = -PLATE_HEIGHT/2`. -/
def stand_back_y : ℚ := -(PLATE_HEIGHT / 2)

/-- `stand_bottom_x = np.linspace(-PLATE_WIDTH/2, PLATE_WIDTH/2, 8)`. -/
def stand_bottom_x : List ℚ :=
  linspace (-(PLATE_WIDTH / 2)) (PLATE_WIDTH / 2) 8

/-- `stand_angle_rad = np.radians(STAND_ANGLE)`. -/
def stand_angle_rad (tr : Trig) : ℚ := radians tr STAND_ANGLE

/-- Stand vertices: for each sample `x`, the build-plate point (`z = 0`) and
the plate-back attachment point (`z = PLATE_THICKNESS`). -/
def stand_verts (tr : Trig) : List Vec3 :=
  stand_bottom_x.flatMap
    (fun x => [(x, stand_back_y - STAND_HEIGHT * tr.cos (stand_angle_rad tr), 0),
               (x, stand_back_y, PLATE_THICKNESS)])

/-- `stand_count = len(stand_verts)`. -/
def stand_count (tr : Trig) : ℕ := (stand_verts tr).length

/-- The concatenated vertex list `plate ++ letters ++ stand`. -/
def nameplateVertices (tr : Trig) : List Vec3 :=
  plateVerts ++ letter_verts tr ++ stand_verts tr

/-- `plate_start = 0`. -/
def plate_start : ℕ := 0

/-- `letter_start = plate_count`. -/
def letter_start : ℕ := plate_count

/-- `stand_start = letter_start + letter_count`. -/
def stand_start (tr : Trig) : ℕ := letter_start + letter_count tr

/-- Plate faces: bottom quad split plus walls, four faces per corner pair. -/
def plateFaces : List Face :=
  (List.range 4).flatMap (fun i =>
    let next_i := (i + 1) % 4
    [(plate_start + 2 * i, plate_start + 2 * next_i, plate_start + 2 * next_i + 1),
     (plate_start + 2 * i, plate_start + 2 * next_i + 1, plate_start + 2 * i + 1),
     (plate_start + 2 * i, plate_start + 2 * i + 1, plate_start + 2 * next_i + 1),
     (plate_start + 2 * i, plate_start + 2 * next_i + 1, plate_start + 2 * next_i)])

/-- Letter faces: `len(letter_verts)//2 - 1` iterations of four faces. -/
def letterFaces (tr : Trig) : List Face :=
  (List.range (letter_count tr / 2 - 1)).flatMap (fun i =>
    let v1 := letter_start + 2 * i
    let v2 := letter_start + 2 * (i + 1)
    let v3 := letter_start + 2 * (i + 1) + 1
    let v4 := letter_start + 2 * i + 1
    [(v1, v2, v3), (v1, v3, v4),
     (v1, v4, plate_start + 1), (v1, plate_start + 1, v2)])

/-- Stand faces: `len(stand_verts)//2 - 1` iterations of four faces. -/
def standFaces (tr : Trig) : List Face :=
  (List.range (stand_count tr / 2 - 1)).flatMap (fun i =>
    let v1 := stand_start tr + 2 * i
    let v2 := stand_start tr + 2 * (i + 1)
    let v3 := stand_start tr + 2 * (i + 1) + 1
    let v4 := stand_start tr + 2 * i + 1
    [(v1, v2, v3), (v1, v3, v4),
     (v4, v3, plate_start + 1), (v4, plate_start + 1, plate_start + 3)])

/-- The concatenated face list `plate ++ letters ++ stand`. -/
def nameplateFaces (tr : Trig) : List Face :=
  plateFaces ++ letterFaces tr ++ standFaces tr

/-- Length of a two-per-element append loop over an arbitrary list. -/
lemma length_flatMap_pair' {α β : Type} (l : List α) (f g : α → β) :
    (l.flatMap (fun a => [f a, g a])).length = 2 * l.length := by
  induction l with
  | nil => simp
  | cons a t ih => simp [ih]; omega

lemma plate_count_eq : plate_count = 8 := rfl

lemma generate_letter_S_length (tr : Trig) (cx cy h ws : ℚ) :
    (generate_letter_S tr cx cy h ws).length = 21 := by
  simp only [generate_letter_S, linspace, List.length_append, List.length_map,
    List.length_range, List.length_cons, List.length_nil]

lemma generate_letter_A_length (cx cy h ws : ℚ) :
    (generate_letter_A cx cy h ws).length = 5 := by
  simp only [generate_letter_A, List.length_cons, List.length_nil]

lemma letter_count_eq (tr : Trig) : letter_count tr = 72 := by
  rw [letter_count, letter_verts]
  rw [show letter_centers_x.enum =
    [(0, -(3 / 2 * letter_spacing)), (1, -(1 / 2 * letter_spacing)),
     (2, 1 / 2 * letter_spacing), (3, 3 / 2 * letter_spacing)] from rfl]
  simp only [List.flatMap_cons, List.flatMap_nil, List.append_nil,
    List.length_append, length_flatMap_pair', letter_points_at]
  norm_num [generate_letter_S_length, generate_letter_A_length]

lemma stand_count_eq (tr : Trig) : stand_count tr = 16 := by
  rw [stand_count, stand_verts, length_flatMap_pair', stand_bottom_x, linspace,
    List.length_map, List.length_range]

/-- Length of a loop appending a constant number of elements per iteration. -/
lemma length_flatMap_const {α : Type} (F : ℕ → List α) (c N : ℕ)
    (hF : ∀ i, (F i).length = c) :
    ((List.range N).flatMap F).length = c * N := by
  induction N with
  | zero => simp
  | succ n ih =>
    rw [List.range_succ, List.flatMap_append]
    simp [ih, hF]
    ring

lemma plateFaces_length : plateFaces.length = 16 := rfl

lemma letterFaces_length (tr : Trig) : (letterFaces tr).length = 140 := by
  have h : letter_count tr / 2 - 1 = 35 := by rw [letter_count_eq]
  rw [letterFaces, h]
  refine (length_flatMap_const _ 4 35 fun i => ?_).trans (by norm_num)
  rfl

lemma standFaces_length (tr : Trig) : (standFaces tr).length = 28 := by
  have h : stand_count tr / 2 - 1 = 7 := by rw [stand_count_eq]
  rw [standFaces, h]
  refine (length_flatMap_const _ 4 7 fun i => ?_).trans (by norm_num)
  rfl

lemma letter_verts_length (tr : Trig) : (letter_verts tr).length = 72 :=
  letter_count_eq tr

lemma stand_verts_length (tr : Trig) : (stand_verts tr).length = 16 :=
  stand_count_eq tr

lemma nameplateVertices_length (tr : Trig) :
    (nameplateVertices tr).length = 96 := by
  rw [nameplateVertices]
  simp [letter_verts_length, stand_verts_length,
    show plateVerts.length = 8 from rfl]

lemma nameplateFaces_length (tr : Trig) : (nameplateFaces tr).length = 184 := by
  rw [nameplateFaces]
  simp [plateFaces_length, letterFaces_length, standFaces_length]

/-- C9: with the script's hard-coded constants the nameplate mesh has exactly
96 vertices (8 plate vertices, 72 letter vertices — one 21-point S outline
and three 5-point A outlines, each point at two z-levels — and 16 stand
vertices) and exactly 184 faces (16 plate faces, 140 letter faces from 35
iterations of 4 faces, 28 stand faces from 7 iterations of 4 faces). -/
theorem nameplate_counts (tr : Trig) :
    plate_count = 8 ∧ letter_count tr = 72 ∧ stand_count tr = 16 ∧
    (nameplateVertices tr).length = 96 ∧
    plateFaces.length = 16 ∧ (letterFaces tr).length = 140 ∧
    (standFaces tr).length = 28 ∧ (nameplateFaces tr).length = 184 :=
  ⟨plate_count_eq, letter_count_eq tr, stand_count_eq tr,
    nameplateVertices_length tr, plateFaces_length, letterFaces_length tr,
    standFaces_length tr, nameplateFaces_length tr⟩

/-- C5: part meshes are concatenated with running index offsets —
`letter_start` equals the plate's vertex count (8), `stand_start` equals
plate plus letter count (80), and the concatenated vertex list restricted to
each offset range is exactly the part's own vertex list. -/
theorem nameplate_concat_offsets (tr : Trig) :
    letter_start = plate_count ∧ plate_count = 8 ∧
    stand_start tr = letter_start + letter_count tr ∧ stand_start tr = 80 ∧
    (∀ k, k < letter_count tr →
      (nameplateVertices tr)[letter_start + k]? = (letter_verts tr)[k]?) ∧
    (∀ k, k < stand_count tr →
      (nameplateVertices tr)[stand_start tr + k]? = (stand_verts tr)[k]?) := by
  have hP : plateVerts.length = 8 := rfl
  have hL := letter_verts_length tr
  have hS80 : stand_start tr = 80 := by
    rw [stand_start, letter_start, letter_count_eq, plate_count_eq]
  have hplen : (plateVerts ++ letter_verts tr).length = 80 := by
    simp [hP, hL]
  have hls : letter_start = 8 := rfl
  refine ⟨rfl, plate_count_eq, rfl, hS80, fun k hk => ?_, fun k hk => ?_⟩
  · rw [letter_count_eq] at hk
    have hc1 : letter_start + k < (plateVerts ++ letter_verts tr).length := by
      rw [hplen, hls]; omega
    have hc2 : ¬ letter_start + k < plateVerts.length := by
      rw [hP, hls]; omega
    rw [nameplateVertices, List.getElem?_append, if_pos hc1,
      List.getElem?_append, if_neg hc2, hP, hls]
    have h1 : 8 + k - 8 = k := by omega
    rw [h1]
  · rw [stand_count_eq] at hk
    have hc1 : ¬ stand_start tr + k < (plateVerts ++ letter_verts tr).length := by
      rw [hplen, hS80]; omega
    rw [nameplateVertices, List.getElem?_append, if_neg hc1, hplen, hS80]
    have h1 : 80 + k - 80 = k := by omega
    rw [h1]

/-- Witness for `nameplate_concat_offsets`: the first letter vertex sits at
index `letter_start` of the concatenated list. -/
theorem nameplate_concat_offsets_witness :
    (nameplateVertices trivTrig)[letter_start + 0]? =
      (letter_verts trivTrig)[0]? :=
  (nameplate_concat_offsets trivTrig).2.2.2.2.1 0
    (by rw [letter_count_eq]; norm_num)

/-- C1: in both generated meshes every entry of every face triple is a valid
index into the (concatenated) vertex list — strictly less than the total
vertex count: `2N + 2` for the heart with any `NUM_POINTS = N ≥ 1`, and `96`
for the nameplate as built with its constants. -/
theorem faces_in_bounds (tr : Trig) (scale thickness : ℚ) (N : ℕ)
    (hN : 1 ≤ N) :
    (∀ f ∈ heartFaces N,
      f.1 < (heartVertices tr scale thickness N).length ∧
      f.2.1 < (heartVertices tr scale thickness N).length ∧
      f.2.2 < (heartVertices tr scale thickness N).length) ∧
    (∀ f ∈ nameplateFaces tr,
      f.1 < (nameplateVertices tr).length ∧
      f.2.1 < (nameplateVertices tr).length ∧
      f.2.2 < (nameplateVertices tr).length) := by
  constructor
  · intro f hf
    rw [heartVertices_length]
    have hnx : ∀ i, nxt N i < N := nxt_lt (by omega)
    rw [heartFaces] at hf
    rcases List.mem_append.mp hf with h | h
    · rcases List.mem_append.mp h with h' | h'
      · rw [heartSideFaces] at h'
        rcases List.mem_flatMap.mp h' with ⟨i, hi, hfi⟩
        have hiN : i < N := List.mem_range.mp hi
        have := hnx i
        rcases List.mem_cons.mp hfi with rfl | hfi'
        · refine ⟨?_, ?_, ?_⟩ <;> simp <;> omega
        · rcases List.mem_singleton.mp hfi' with rfl
          refine ⟨?_, ?_, ?_⟩ <;> simp <;> omega
      · rw [heartTopFaces] at h'
        rcases List.mem_map.mp h' with ⟨i, hi, rfl⟩
        have hiN : i < N := List.mem_range.mp hi
        have := hnx i
        refine ⟨?_, ?_, ?_⟩ <;> simp <;> omega
    · rw [heartBottomFaces] at h
      rcases List.mem_map.mp h with ⟨i, hi, rfl⟩
      have hiN : i < N := List.mem_range.mp hi
      have := hnx i
      refine ⟨?_, ?_, ?_⟩ <;> simp <;> omega
  · intro f hf
    rw [nameplateVertices_length]
    have hls : letter_start = 8 := rfl
    have hps : plate_start = 0 := rfl
    have hss : stand_start tr = 80 := by
      rw [stand_start, letter_start, letter_count_eq, plate_count_eq]
    rw [nameplateFaces] at hf
    rcases List.mem_append.mp hf with h | h
    · rcases List.mem_append.mp h with h' | h'
      · rw [plateFaces] at h'
        rcases List.mem_flatMap.mp h' with ⟨i, hi, hfi⟩
        have hiN : i < 4 := List.mem_range.mp hi
        fin_cases hfi <;> refine ⟨?_, ?_, ?_⟩ <;>
          simp [hls, hps, hss] <;> omega
      · rw [letterFaces, show letter_count tr / 2 - 1 = 35 by
          rw [letter_count_eq]] at h'
        rcases List.mem_flatMap.mp h' with ⟨i, hi, hfi⟩
        have hiN : i < 35 := List.mem_range.mp hi
        fin_cases hfi <;> refine ⟨?_, ?_, ?_⟩ <;>
          simp [hls, hps, hss] <;> omega
    · rw [standFaces, show stand_count tr / 2 - 1 = 7 by
        rw [stand_count_eq]] at h
      rcases List.mem_flatMap.mp h with ⟨i, hi, hfi⟩
      have hiN : i < 7 := List.mem_range.mp hi
      fin_cases hfi <;> refine ⟨?_, ?_, ?_⟩ <;>
        simp [hls, hps, hss] <;> omega

/-- Witness for `faces_in_bounds`: the first side face of the heart at
`N = 1` and the first plate face of the nameplate. -/
theorem faces_in_bounds_witness :
    ((0, nxt 1 0, 1 + nxt 1 0).1 < (heartVertices trivTrig 1 2 1).length ∧
      (0, nxt 1 0, 1 + nxt 1 0).2.1 < (heartVertices trivTrig 1 2 1).length ∧
      (0, nxt 1 0, 1 + nxt 1 0).2.2 < (heartVertices trivTrig 1 2 1).length) ∧
    ((plate_start + 2 * 0, plate_start + 2 * ((0 + 1) % 4),
        plate_start + 2 * ((0 + 1) % 4) + 1).1 < (nameplateVertices trivTrig).length ∧
      (plate_start + 2 * 0, plate_start + 2 * ((0 + 1) % 4),
        plate_start + 2 * ((0 + 1) % 4) + 1).2.1 < (nameplateVertices trivTrig).length ∧
      (plate_start + 2 * 0, plate_start + 2 * ((0 + 1) % 4),
        plate_start + 2 * ((0 + 1) % 4) + 1).2.2 < (nameplateVertices trivTrig).length) :=
  ⟨(faces_in_bounds trivTrig 1 2 1 (by norm_num)).1 _ (by decide),
   (faces_in_bounds trivTrig 1 2 1 (by norm_num)).2 _
     (by rw [nameplateFaces, plateFaces]
         exact List.mem_append_left _ (List.mem_append_left _
           (List.mem_flatMap.mpr ⟨0, by decide, by decide⟩)))⟩

/-- C6: both generators are deterministic — for equal parameter values (the
same abstract trig backend, scale, thickness and point count) the scripts
build syntactically identical vertex and face lists; no random perturbation
enters either construction. -/
theorem generators_deterministic (tr tr' : Trig)
    (scale scale' thickness thickness' : ℚ) (N N' : ℕ)
    (h1 : tr = tr') (h2 : scale = scale') (h3 : thickness = thickness')
    (h4 : N = N') :
    heartVertices tr scale thickness N = heartVertices tr' scale' thickness' N' ∧
    heartFaces N = heartFaces N' ∧
    nameplateVertices tr = nameplateVertices tr' ∧
    nameplateFaces tr = nameplateFaces tr' := by
  subst h1; subst h2; subst h3; subst h4
  exact ⟨rfl, rfl, rfl, rfl⟩

/-- Witness for `generators_deterministic` at concrete parameters. -/
theorem generators_deterministic_witness :
    heartVertices trivTrig HEART_SCALE THICKNESS NUM_POINTS =
      heartVertices trivTrig HEART_SCALE THICKNESS NUM_POINTS ∧
    heartFaces NUM_POINTS = heartFaces NUM_POINTS ∧
    nameplateVertices trivTrig = nameplateVertices trivTrig ∧
    nameplateFaces trivTrig = nameplateFaces trivTrig :=
  generators_deterministic trivTrig trivTrig HEART_SCALE HEART_SCALE
    THICKNESS THICKNESS NUM_POINTS NUM_POINTS rfl rfl rfl rfl

/- ---------------- STL mesh assembly (final loop of both scripts) ----------------
   `mesh.Mesh(np.zeros(faces.shape[0], dtype=mesh.Mesh.dtype))` allocates one
   record per face with zero-filled `normals` and `vectors` fields; the loop
   `for i, face in enumerate(faces): for j in range(3):
        mesh.vectors[i][j] = vertices[face[j]]`
   then writes only the `vectors` entries. -/

/-- One triangle's three corner coordinates (`mesh.vectors[i]`). -/
abbrev Tri : Type := Vec3 × Vec3 × Vec3

/-- The zero coordinate triple. -/
def zeroVec : Vec3 := (0, 0, 0)

/-- A zero-filled triangle record. -/
def zeroTri : Tri := (zeroVec, zeroVec, zeroVec)

/-- `face[j]` for `j in range(3)`. -/
def faceComp (f : Face) (j : ℕ) : ℕ :=
  match j with
  | 0 => f.1
  | 1 => f.2.1
  | _ => f.2.2

/-- `vectors[i][j]` for `j in range(3)`. -/
def triComp (t : Tri) (j : ℕ) : Vec3 :=
  match j with
  | 0 => t.1
  | 1 => t.2.1
  | _ => t.2.2

/-- In-place update `vectors[i][j] = v` of one corner. -/
def setTriComp (t : Tri) (j : ℕ) (v : Vec3) : Tri :=
  match j with
  | 0 => (v, t.2.1, t.2.2)
  | 1 => (t.1, v, t.2.2)
  | _ => (t.1, t.2.1, v)

/-- The mutable mesh object: per-triangle normals and corner coordinates. -/
structure STLMesh where
  normals : List Vec3
  vectors : List Tri

/-- `mesh.Mesh(np.zeros(n, dtype=mesh.Mesh.dtype))`: all fields zero. -/
def meshZeros (n : ℕ) : STLMesh :=
  ⟨List.replicate n zeroVec, List.replicate n zeroTri⟩

/-- One execution of `mesh.vectors[i][j] = vertices[face[j]]`. -/
def writeCorner (V : List Vec3) (m : STLMesh) (i : ℕ) (f : Face) (j : ℕ) :
    STLMesh :=
  { m with
    vectors := m.vectors.set i
      (setTriComp (m.vectors.getD i zeroTri) j
        (V.getD (faceComp f j) zeroVec)) }

/-- The inner loop `for j in range(3)`. -/
def writeFace (V : List Vec3) (m : STLMesh) (p : ℕ × Face) : STLMesh :=
  (List.range 3).foldl (fun acc j => writeCorner V acc p.1 p.2 j) m

/-- The assembly loop `for i, face in enumerate(faces)` over the zero mesh. -/
def assemble (V : List Vec3) (F : List Face) : STLMesh :=
  (F.enum).foldl (writeFace V) (meshZeros F.length)

/-- The denormalized triangle of a face: its own three vertex coordinates. -/
def denorm (V : List Vec3) (f : Face) : Tri :=
  (V.getD f.1 zeroVec, V.getD f.2.1 zeroVec, V.getD f.2.2 zeroVec)

lemma getD_set_self {α : Type} (l : List α) (i : ℕ) (a d : α)
    (h : i < l.length) : (l.set i a).getD i d = a := by
  rw [List.getD_eq_getElem?_getD, List.getElem?_set_self h, Option.getD_some]

lemma take_succ_set {α : Type} (l : List α) (k : ℕ) (a : α)
    (h : k < l.length) : (l.set k a).take (k + 1) = l.take k ++ [a] := by
  rw [List.set_eq_take_append_cons_drop, if_pos h,
    List.take_append_eq_append_take]
  have h1 : (List.take k l).length = k := by simp; omega
  rw [h1]
  have h2 : k + 1 - k = 1 := by omega
  rw [h2]
  have h3 : List.take (k + 1) (List.take k l) = List.take k l := by
    rw [List.take_take]
    congr 1
    omega
  rw [h3]
  simp

lemma writeFace_eq (V : List Vec3) (m : STLMesh) (i : ℕ) (f : Face)
    (h : i < m.vectors.length) :
    (writeFace V m (i, f)).vectors = m.vectors.set i (denorm V f) := by
  have e : writeFace V m (i, f) =
      writeCorner V (writeCorner V (writeCorner V m i f 0) i f 1) i f 2 := rfl
  rw [e]
  simp only [writeCorner, setTriComp, faceComp]
  rw [getD_set_self _ _ _ _ (by simpa using h)]
  rw [List.set_set]
  rw [getD_set_self _ _ _ _ (by simpa using h)]
  rw [List.set_set]
  rfl

lemma writeFace_normals (V : List Vec3) (m : STLMesh) (p : ℕ × Face) :
    (writeFace V m p).normals = m.normals := rfl

lemma writeFace_vectors_length (V : List Vec3) (m : STLMesh) (p : ℕ × Face) :
    (writeFace V m p).vectors.length = m.vectors.length := by
  have e : writeFace V m p =
      writeCorner V (writeCorner V (writeCorner V m p.1 p.2 0) p.1 p.2 1)
        p.1 p.2 2 := rfl
  rw [e]
  simp [writeCorner]

lemma assemble_loop_vectors (V : List Vec3) :
    ∀ (F : List Face) (k : ℕ) (m : STLMesh),
      m.vectors.length = k + F.length →
      ((F.enumFrom k).foldl (writeFace V) m).vectors =
        m.vectors.take k ++ F.map (denorm V) := by
  intro F
  induction F with
  | nil =>
    intro k m h
    simp only [List.length_nil] at h
    simp only [List.enumFrom, List.foldl_nil, List.map_nil, List.append_nil]
    rw [List.take_of_length_le (by omega)]
  | cons f tl ih =>
    intro k m h
    rw [List.enumFrom, List.foldl_cons]
    have hk : k < m.vectors.length := by simp at h; omega
    have hw := writeFace_eq V m k f hk
    have hlen : (writeFace V m (k, f)).vectors.length = k + 1 + tl.length := by
      rw [writeFace_vectors_length, h]
      simp
      omega
    rw [ih (k + 1) _ hlen, hw, List.map_cons]
    rw [take_succ_set _ _ _ hk]
    simp

lemma assemble_vectors (V : List Vec3) (F : List Face) :
    (assemble V F).vectors = F.map (denorm V) := by
  rw [assemble, show F.enum = F.enumFrom 0 from rfl]
  have h := assemble_loop_vectors V F 0 (meshZeros F.length)
    (by simp [meshZeros])
  simpa [meshZeros] using h

lemma foldl_writeFace_normals (V : List Vec3) :
    ∀ (l : List (ℕ × Face)) (m : STLMesh),
      (l.foldl (writeFace V) m).normals = m.normals := by
  intro l
  induction l with
  | nil => intro m; rfl
  | cons p t ih => intro m; rw [List.foldl_cons, ih, writeFace_normals]

lemma assemble_normals (V : List Vec3) (F : List Face) :
    (assemble V F).normals = List.replicate F.length zeroVec := by
  rw [assemble, foldl_writeFace_normals]
  rfl

/-- C7: the assembled output mesh is denormalized — for every face index `i`
and corner `j < 3`, the stored corner `mesh.vectors[i][j]` equals the
coordinate triple `vertices[faces[i][j]]`, so each triangle carries its own
three vertex coordinates instead of referencing a shared vertex table.  This
is the assembly loop shared verbatim by the heart and nameplate scripts. -/
theorem mesh_assembly_denormalized (V : List Vec3) (F : List Face) (i j : ℕ)
    (hi : i < F.length) (hj : j < 3) :
    triComp ((assemble V F).vectors.getD i zeroTri) j =
      V.getD (faceComp (F.getD i (0, 0, 0)) j) zeroVec := by
  rw [assemble_vectors]
  rw [List.getD_eq_getElem _ _ (by simpa using hi), List.getElem_map]
  rw [List.getD_eq_getElem _ _ hi]
  interval_cases j <;> rfl

/-- Witness for `mesh_assembly_denormalized` on a one-face mesh. -/
theorem mesh_assembly_denormalized_witness :
    triComp ((assemble [((1 : ℚ), (2 : ℚ), (3 : ℚ))] [(0, 0, 0)]).vectors.getD
        0 zeroTri) 0 =
      [((1 : ℚ), (2 : ℚ), (3 : ℚ))].getD
        (faceComp (([((0 : ℕ), (0 : ℕ), (0 : ℕ))] : List Face).getD 0
          (0, 0, 0)) 0) zeroVec :=
  mesh_assembly_denormalized [((1 : ℚ), (2 : ℚ), (3 : ℚ))] [(0, 0, 0)] 0 0
    (by norm_num) (by norm_num)

/-- C8: the core computes no normals — the assembly loop writes only the
`vectors` field, so the `normals` field of every triangle record stays
exactly as `mesh.Mesh(np.zeros(...))` initialized it: zero-filled. -/
theorem mesh_assembly_normals_zero (V : List Vec3) (F : List Face) :
    (assemble V F).normals = (meshZeros F.length).normals ∧
    (meshZeros F.length).normals = List.replicate F.length zeroVec := by
  refine ⟨?_, ?_⟩
  · rw [assemble_normals]
    simp [meshZeros]
  · simp [meshZeros]

/- ---------------- topological closure of the heart mesh (C10) ----------------
   Undirected edges are normalized as (min, max) pairs.  Every undirected edge
   of the face list falls into one of six families indexed by the perimeter
   position `i`; each family member occurs in exactly two triangles. -/

/-- The undirected edge between vertex indices `a` and `b`. -/
def und (a b : ℕ) : ℕ × ℕ := (min a b, max a b)

/-- The three undirected edges of a triangle. -/
def faceEdges (f : Face) : List (ℕ × ℕ) :=
  [und f.1 f.2.1, und f.2.1 f.2.2, und f.1 f.2.2]

/-- All edge occurrences of the heart's face list (with multiplicity). -/
def heartEdges (N : ℕ) : List (ℕ × ℕ) := (heartFaces N).flatMap faceEdges

/-- Top-rim edge `{i, next}`. -/
def rimT (N i : ℕ) : ℕ × ℕ := und i (nxt N i)

/-- Bottom-rim edge `{N+next, N+i}`. -/
def rimB (N i : ℕ) : ℕ × ℕ := und (N + nxt N i) (N + i)

/-- Quad-diagonal edge `{i, N+next}`. -/
def diag (N i : ℕ) : ℕ × ℕ := und i (N + nxt N i)

/-- Vertical seam edge `{i, N+i}`. -/
def vertE (N i : ℕ) : ℕ × ℕ := und i (N + i)

/-- Top fan spoke `{2N, i}`. -/
def spkT (N i : ℕ) : ℕ × ℕ := und (2 * N) i

/-- Bottom fan spoke `{2N+1, N+i}`. -/
def spkB (N i : ℕ) : ℕ × ℕ := und (2 * N + 1) (N + i)

/-- The six canonical edges at perimeter position `i`. -/
def canonEdges (N i : ℕ) : List (ℕ × ℕ) :=
  [rimT N i, rimB N i, diag N i, vertE N i, spkT N i, spkB N i]

/-- All canonical edges of the heart mesh, one occurrence each. -/
def canonList (N : ℕ) : List (ℕ × ℕ) := (List.range N).flatMap (canonEdges N)

/-- Classifier mapping each canonical edge back to (family, position). -/
def decode (N : ℕ) (e : ℕ × ℕ) : ℕ × ℕ :=
  if e.2 = 2 * N then (4, e.1)
  else if e.2 = 2 * N + 1 then (5, e.1 - N)
  else if e.2 < N then (if e.2 = e.1 + 1 then (0, e.1) else (0, N - 1))
  else if e.1 < N then (if e.2 = N + e.1 then (3, e.1) else (2, e.1))
  else (if e.2 = e.1 + 1 then (1, e.1 - N) else (1, N - 1))

lemma und_of_le {a b : ℕ} (h : a ≤ b) : und a b = (a, b) := by
  simp [und, min_eq_left h, max_eq_right h]

lemma und_of_ge {a b : ℕ} (h : b ≤ a) : und a b = (b, a) := by
  simp [und, min_eq_right h, max_eq_left h]

lemma und_inj {a b c d : ℕ} :
    und a b = und c d ↔ (a = c ∧ b = d) ∨ (a = d ∧ b = c) := by
  simp [und, Prod.ext_iff]
  omega

lemma nxt_ne {N i : ℕ} (hN : 2 ≤ N) (hi : i < N) : nxt N i ≠ i := by
  rcases Nat.lt_or_ge (i + 1) N with h | h
  · rw [nxt_of_succ_lt h]; omega
  · rw [nxt_of_succ_eq (by omega)]; omega

lemma decode_mk (N a b : ℕ) :
    decode N (a, b) =
      if b = 2 * N then (4, a)
      else if b = 2 * N + 1 then (5, a - N)
      else if b < N then (if b = a + 1 then (0, a) else (0, N - 1))
      else if a < N then (if b = N + a then (3, a) else (2, a))
      else (if b = a + 1 then (1, a - N) else (1, N - 1)) := rfl

lemma decode_rimT {N i : ℕ} (hN : 3 ≤ N) (hi : i < N) :
    decode N (rimT N i) = (0, i) := by
  rcases Nat.lt_or_ge (i + 1) N with h | h
  · rw [rimT, nxt_of_succ_lt h, und_of_le (by omega), decode_mk]
    split_ifs <;> simp only [Prod.mk.injEq, true_and, and_true,
      false_and, and_false] <;> omega
  · have he : i + 1 = N := by omega
    rw [rimT, nxt_of_succ_eq he, und_of_ge (Nat.zero_le i), decode_mk]
    split_ifs <;> simp only [Prod.mk.injEq, true_and, and_true,
      false_and, and_false] <;> omega

lemma decode_rimB {N i : ℕ} (hN : 3 ≤ N) (hi : i < N) :
    decode N (rimB N i) = (1, i) := by
  rcases Nat.lt_or_ge (i + 1) N with h | h
  · rw [rimB, nxt_of_succ_lt h, und_of_ge (by omega), decode_mk]
    split_ifs <;> simp only [Prod.mk.injEq, true_and, and_true,
      false_and, and_false] <;> omega
  · have he : i + 1 = N := by omega
    rw [rimB, nxt_of_succ_eq he, und_of_le (by omega), decode_mk]
    split_ifs <;> simp only [Prod.mk.injEq, true_and, and_true,
      false_and, and_false] <;> omega

lemma decode_diag {N i : ℕ} (hN : 3 ≤ N) (hi : i < N) :
    decode N (diag N i) = (2, i) := by
  rcases Nat.lt_or_ge (i + 1) N with h | h
  · rw [diag, nxt_of_succ_lt h, und_of_le (by omega), decode_mk]
    split_ifs <;> simp only [Prod.mk.injEq, true_and, and_true,
      false_and, and_false] <;> omega
  · have he : i + 1 = N := by omega
    rw [diag, nxt_of_succ_eq he, und_of_le (by omega), decode_mk]
    split_ifs <;> simp only [Prod.mk.injEq, true_and, and_true,
      false_and, and_false] <;> omega

lemma decode_vertE {N i : ℕ} (hN : 3 ≤ N) (hi : i < N) :
    decode N (vertE N i) = (3, i) := by
  rw [vertE, und_of_le (by omega), decode_mk]
  split_ifs <;> simp only [Prod.mk.injEq, true_and, and_true,
      false_and, and_false] <;> omega

lemma decode_spkT {N i : ℕ} (hN : 3 ≤ N) (hi : i < N) :
    decode N (spkT N i) = (4, i) := by
  rw [spkT, und_of_ge (by omega), decode_mk]
  split_ifs <;> simp only [Prod.mk.injEq, true_and, and_true,
      false_and, and_false] <;> omega

lemma decode_spkB {N i : ℕ} (hN : 3 ≤ N) (hi : i < N) :
    decode N (spkB N i) = (5, i) := by
  rw [spkB, und_of_ge (by omega), decode_mk]
  split_ifs <;> simp only [Prod.mk.injEq, true_and, and_true,
      false_and, and_false] <;> omega

/-- Coerced flatMap over a range as a multiset sum. -/
lemma coe_flatMap_range {β : Type} (F : ℕ → List β) (N : ℕ) :
    (↑((List.range N).flatMap F) : Multiset β) =
      ∑ i ∈ Finset.range N, (↑(F i) : Multiset β) := by
  induction N with
  | zero => rfl
  | succ n ih =>
    rw [List.range_succ, List.flatMap_append, ← Multiset.coe_add, ih,
      Finset.sum_range_succ]
    congr 1
    simp [← Multiset.coe_add]

/-- Summing over the cyclic successor `(i+1) % N` is a reindexing. -/
lemma sum_range_nxt {β : Type} [AddCommMonoid β] (g : ℕ → β) (N : ℕ)
    (hN : 1 ≤ N) :
    ∑ i ∈ Finset.range N, g (nxt N i) = ∑ i ∈ Finset.range N, g i := by
  obtain ⟨n, rfl⟩ : ∃ n, N = n + 1 := ⟨N - 1, by omega⟩
  rw [Finset.sum_range_succ, Finset.sum_range_succ']
  congr 1
  · exact Finset.sum_congr rfl
      (fun i hi => by rw [nxt_of_succ_lt (by simp at hi; omega)])
  · rw [nxt_of_succ_eq rfl]

/-- The edge occurrences of the heart's face list are exactly two copies of
the canonical edge list. -/
lemma heartEdges_eq_two_smul {N : ℕ} (hN : 1 ≤ N) :
    (↑(heartEdges N) : Multiset (ℕ × ℕ)) =
      2 • (↑(canonList N) : Multiset (ℕ × ℕ)) := by
  rw [heartEdges, heartFaces, List.flatMap_append, List.flatMap_append,
    ← Multiset.coe_add, ← Multiset.coe_add]
  rw [heartSideFaces, List.flatMap_assoc, heartTopFaces, List.flatMap_map,
    heartBottomFaces, List.flatMap_map]
  rw [coe_flatMap_range, coe_flatMap_range, coe_flatMap_range]
  rw [canonList, coe_flatMap_range, Finset.smul_sum]
  rw [← Finset.sum_add_distrib, ← Finset.sum_add_distrib]
  have split : ∀ x ∈ Finset.range N,
      ((↑([(x, nxt N x, N + nxt N x), (x, N + nxt N x, N + x)].flatMap
          faceEdges) : Multiset (ℕ × ℕ))
        + ↑(faceEdges (2 * N, x, nxt N x))
        + ↑(faceEdges (2 * N + 1, N + nxt N x, N + x))) =
      (↑(canonEdges N x) + ↑([rimT N x, rimB N x, diag N x] : List (ℕ × ℕ)))
        + (fun j => (↑([vertE N j, spkT N j, spkB N j] : List (ℕ × ℕ)) :
            Multiset (ℕ × ℕ))) (nxt N x) := by
    intro x _
    simp only [List.flatMap_cons, List.flatMap_nil, List.append_nil,
      faceEdges, canonEdges, rimT, rimB, diag, vertE, spkT, spkB]
    simp only [← Multiset.coe_add, ← Multiset.cons_coe, Multiset.coe_nil,
      ← Multiset.singleton_add]
    abel
  rw [Finset.sum_congr rfl split]
  rw [Finset.sum_add_distrib]
  rw [sum_range_nxt (fun j => (↑([vertE N j, spkT N j, spkB N j] :
    List (ℕ × ℕ)) : Multiset (ℕ × ℕ))) N hN]
  rw [← Finset.sum_add_distrib]
  refine Finset.sum_congr rfl (fun x _ => ?_)
  rw [two_nsmul]
  simp only [canonEdges, rimT, rimB, diag, vertE, spkT, spkB,
    ← Multiset.cons_coe, Multiset.coe_nil, ← Multiset.singleton_add]
  abel

/-- Congruence for flatMap over a fixed list. -/
lemma flatMap_congr_mem {α β : Type} {l : List α} {f g : α → List β}
    (h : ∀ a ∈ l, f a = g a) : l.flatMap f = l.flatMap g := by
  induction l with
  | nil => rfl
  | cons a t ih =>
    simp only [List.flatMap_cons]
    rw [h a (List.mem_cons_self a t),
      ih (fun b hb => h b (List.mem_cons_of_mem a hb))]

/-- Decoding the canonical edge list yields the evidently duplicate-free
family/position codes. -/
lemma canonList_map_decode {N : ℕ} (hN : 3 ≤ N) :
    (canonList N).map (decode N) =
      (List.range N).flatMap
        (fun i => [(0, i), (1, i), (2, i), (3, i), (4, i), (5, i)]) := by
  rw [canonList, List.map_flatMap]
  apply flatMap_congr_mem
  intro i hi
  have hiN : i < N := List.mem_range.mp hi
  simp only [canonEdges, List.map_cons, List.map_nil]
  rw [decode_rimT hN hiN, decode_rimB hN hiN, decode_diag hN hiN,
    decode_vertE hN hiN, decode_spkT hN hiN, decode_spkB hN hiN]

/-- The canonical edge list has no duplicates. -/
lemma canonList_nodup {N : ℕ} (hN : 3 ≤ N) : (canonList N).Nodup := by
  apply List.Nodup.of_map (decode N)
  rw [canonList_map_decode hN, List.nodup_flatMap]
  constructor
  · intro i _
    simp
  · apply List.Pairwise.imp ?_ (List.pairwise_lt_range N)
    intro a b hab x hxa hxb
    have ha : x.2 = a := by fin_cases hxa <;> rfl
    have hb : x.2 = b := by fin_cases hxb <;> rfl
    omega

/-- Three pairwise-distinct vertices give three distinct undirected edges. -/
lemma faceEdges_nodup_of_distinct {a b c : ℕ} (hab : a ≠ b) (hbc : b ≠ c)
    (hac : a ≠ c) : (faceEdges (a, b, c)).Nodup := by
  simp [faceEdges, List.nodup_cons, und_inj]
  omega

/-- For `N ≥ 3` every heart face has three pairwise-distinct vertices, hence
three distinct edges. -/
lemma heart_faceEdges_nodup {N : ℕ} (hN : 3 ≤ N) :
    ∀ f ∈ heartFaces N, (faceEdges f).Nodup := by
  intro f hf
  have hnx : ∀ i, nxt N i < N := nxt_lt (by omega)
  rw [heartFaces] at hf
  rcases List.mem_append.mp hf with h | h
  · rcases List.mem_append.mp h with h' | h'
    · rw [heartSideFaces] at h'
      rcases List.mem_flatMap.mp h' with ⟨i, hi, hfi⟩
      have hiN : i < N := List.mem_range.mp hi
      have h1 := hnx i
      have h2 := nxt_ne (by omega) hiN
      rcases List.mem_cons.mp hfi with rfl | hfi'
      · exact faceEdges_nodup_of_distinct (by omega) (by omega) (by omega)
      · rcases List.mem_singleton.mp hfi' with rfl
        exact faceEdges_nodup_of_distinct (by omega) (by omega) (by omega)
    · rw [heartTopFaces] at h'
      rcases List.mem_map.mp h' with ⟨i, hi, rfl⟩
      have hiN : i < N := List.mem_range.mp hi
      have h1 := hnx i
      have h2 := nxt_ne (by omega) hiN
      exact faceEdges_nodup_of_distinct (by omega) (by omega) (by omega)
  · rw [heartBottomFaces] at h
    rcases List.mem_map.mp h with ⟨i, hi, rfl⟩
    have hiN : i < N := List.mem_range.mp hi
    have h1 := hnx i
    have h2 := nxt_ne (by omega) hiN
    exact faceEdges_nodup_of_distinct (by omega) (by omega) (by omega)

/-- When every face has duplicate-free edges, the number of faces containing
an edge equals the number of occurrences of that edge in the flattened edge
list. -/
lemma countP_eq_count_flatMap {e : ℕ × ℕ} {L : List Face}
    (h : ∀ f ∈ L, (faceEdges f).Nodup) :
    L.countP (fun f => decide (e ∈ faceEdges f)) =
      Multiset.count e (↑(L.flatMap faceEdges) : Multiset (ℕ × ℕ)) := by
  induction L with
  | nil => rfl
  | cons f t ih =>
    have ht := ih (fun f' hf' => h f' (List.mem_cons_of_mem f hf'))
    have hnf := h f (List.mem_cons_self f t)
    rw [List.countP_cons, List.flatMap_cons, ← Multiset.coe_add,
      Multiset.count_add, ht]
    by_cases hm : e ∈ faceEdges f
    · have h1 : Multiset.count e (↑(faceEdges f) : Multiset (ℕ × ℕ)) = 1 :=
        Multiset.count_eq_one_of_mem (Multiset.coe_nodup.mpr hnf)
          (Multiset.mem_coe.mpr hm)
      rw [h1, if_pos (by simpa using hm)]
      omega
    · have h0 : Multiset.count e (↑(faceEdges f) : Multiset (ℕ × ℕ)) = 0 :=
        Multiset.count_eq_zero.mpr (fun hc => hm (Multiset.mem_coe.mp hc))
      rw [h0, if_neg (by simpa using hm)]
      omega

/-- C10: for every `NUM_POINTS = N ≥ 3` the heart mesh is topologically
closed — every undirected edge occurring in the face list (side-wall rim
edges, quad diagonals, vertical seam edges, and fan edges to the two center
vertices) is shared by exactly two triangles. -/
theorem heart_mesh_closed (N : ℕ) (hN : 3 ≤ N) :
    ∀ e ∈ heartEdges N,
      (heartFaces N).countP (fun f => decide (e ∈ faceEdges f)) = 2 := by
  intro e he
  rw [countP_eq_count_flatMap (heart_faceEdges_nodup hN)]
  rw [show (heartFaces N).flatMap faceEdges = heartEdges N from rfl]
  have hE := heartEdges_eq_two_smul (N := N) (by omega)
  have heC : e ∈ canonList N := by
    have h1 : e ∈ (↑(heartEdges N) : Multiset (ℕ × ℕ)) :=
      Multiset.mem_coe.mpr he
    rw [hE] at h1
    exact Multiset.mem_coe.mp (Multiset.mem_nsmul.mp h1).2
  rw [hE, Multiset.count_nsmul,
    Multiset.count_eq_one_of_mem (Multiset.coe_nodup.mpr (canonList_nodup hN))
      (Multiset.mem_coe.mpr heC)]

/-- Witness for `heart_mesh_closed` at `N = 3` on the rim edge `{0, 1}`. -/
theorem heart_mesh_closed_witness :
    (heartFaces 3).countP (fun f => decide ((0, 1) ∈ faceEdges f)) = 2 :=
  heart_mesh_closed 3 (by norm_num) (0, 1) (by decide)
